import Mathlib

/-!
Verification of the session-clicker program (`src/program/lib.rs`).

The four Anchor instruction handlers (`initialize`, `start_session`,
`end_session`, `cancel_session`) are embedded as pure Lean functions over
explicit `Game` and `Session` records.  Machine integers are modelled as
`Nat` / `Int` with explicit reductions modulo `2 ^ 32` / `2 ^ 64` at the
points where the Rust release-mode arithmetic truncates or wraps
(the `as u32` cast, the u32 multiplication, and the u64 `+=`).

The SHA-256 hash used for the commitment check comes from
`anchor_lang::solana_program::hash`, an external dependency; it is modelled
as a function parameter `H : List Nat → List Nat` over byte lists, so every
theorem about it holds for the real hash as a special case.  Account-level
semantics (create-once on `init`, whole-transaction rollback on error) are
embedded in a `World` step function `apply`, and reachable states are the
inductive closure `Reach`.
-/

namespace SessionClicker

/-- Little-endian byte encoding of `x` into `w` bytes, as Rust `to_le_bytes`
produces for the `w`-byte unsigned integer `x`. -/
def leBytes (w x : Nat) : List Nat :=
  (List.range w).map fun i => x / 256 ^ i % 256

/-- Two's-complement wrap of an integer into the signed 64-bit range,
modelling Rust release-mode `i64` arithmetic. -/
def wrap64 (x : Int) : Int :=
  (x + 2 ^ 63) % 2 ^ 64 - 2 ^ 63

/-- The error enum `ClickerError` of the program. -/
inductive ClickerError where
  | InvalidPlayer
  | SessionAlreadyActive
  | InvalidSession
  | SessionAlreadyRevealed
  | SessionTooLong
  | InvalidCommitment
  | UnrealisticClickRate
deriving DecidableEq

/-- The `Game` account: per-player ledger.  `player` is the owner pubkey
(pubkeys are modelled as naturals), `total_clicks` a u64, `last_session_end`
an i64 timestamp, `active_session` the optional pubkey of the open session
account. -/
structure Game where
  player : Nat
  total_clicks : Nat
  last_session_end : Int
  active_session : Option Nat
deriving DecidableEq

/-- The `Session` account.  `game` is the pubkey of the owning `Game`
account, `commitment` the stored 32-byte hash. -/
structure Session where
  player : Nat
  game : Nat
  commitment : List Nat
  start_time : Int
  end_time : Int
  actual_clicks : Nat
  revealed : Bool
deriving DecidableEq

/-- The byte string hashed by `end_session`: 4-byte LE `clicks`, then 8-byte
LE `nonce`, then the raw 32 player-pubkey bytes, in that order
(`data_to_hash` in the source). -/
def commitData (clicks nonce player : Nat) : List Nat :=
  leBytes 4 clicks ++ leBytes 8 nonce ++ leBytes 32 player

/-- Modelled from the spec: the client-side `commit` operation of the
Commitment Codec (§4.1) is not part of `src/`; per the spec it hashes the
same concatenation that `end_session` recomputes. -/
def commit (H : List Nat → List Nat) (clicks nonce player : Nat) : List Nat :=
  H (commitData clicks nonce player)

/-- The verify side of the Commitment Codec: recompute the hash from the
revealed values and compare byte-for-byte, as `end_session` does with
`revealed_hash != session.commitment`. -/
def verify (H : List Nat → List Nat) (h : List Nat)
    (clicks nonce player : Nat) : Bool :=
  decide (H (commitData clicks nonce player) = h)

/-- The click cap computed by `end_session`:
`(session_duration as u32) * 10` in Rust release mode, i.e. the low 32 bits
of the signed duration, times 10, wrapping in u32. -/
def max_clicks (session_duration : Int) : Nat :=
  ((session_duration % 2 ^ 32).toNat * 10) % 2 ^ 32

/-- The `initialize` handler: the fresh (zeroed) `Game` account gets
`player`, `total_clicks = 0` and `last_session_end = now`;
`active_session` keeps its `Default` value `None`. -/
def init_game (playerKey : Nat) (now : Int) : Game :=
  { player := playerKey
    total_clicks := 0
    last_session_end := now
    active_session := none }

/-- The `start_session` handler.  `sessionKey` is the address of the freshly
created `Session` account, `gameKey` the address of the `Game` account.
On success the new session is returned together with the updated game;
the unset session fields keep their `Default` zero values. -/
def start_session (game : Game) (playerKey gameKey sessionKey : Nat)
    (now : Int) (commitment : List Nat) :
    Except ClickerError (Game × Session) :=
  if game.player ≠ playerKey then .error .InvalidPlayer
  else if game.active_session.isSome then .error .SessionAlreadyActive
  else
    .ok ({ game with active_session := some sessionKey },
      { player := playerKey
        game := gameKey
        commitment := commitment
        start_time := now
        end_time := 0
        actual_clicks := 0
        revealed := false })

/-- The `end_session` handler, in state-passing style: the returned pair of
accounts is the post-call account state (on every error path the source
performs no mutation before returning, which the branches reproduce
line-for-line). -/
def end_session (H : List Nat → List Nat) (game : Game) (session : Session)
    (playerKey sessionKey : Nat) (clicks nonce : Nat)
    (max_session_duration now : Int) :
    Except ClickerError Unit × Game × Session :=
  if game.player ≠ playerKey then (.error .InvalidPlayer, game, session)
  else if game.active_session ≠ some sessionKey then
    (.error .InvalidSession, game, session)
  else if session.revealed then (.error .SessionAlreadyRevealed, game, session)
  -- `session_duration = current_time - session.start_time` is written out
  -- as `wrap64 (now - session.start_time)` below
  else if wrap64 (now - session.start_time) > max_session_duration then
    (.error .SessionTooLong, game, session)
  else if H (commitData clicks nonce playerKey) ≠ session.commitment then
    (.error .InvalidCommitment, game, session)
  else if clicks > max_clicks (wrap64 (now - session.start_time)) then
    (.error .UnrealisticClickRate, game, session)
    else
      (.ok (),
       { game with
          total_clicks := (game.total_clicks + clicks) % 2 ^ 64
          last_session_end := now
          active_session := none },
       { session with revealed := true, actual_clicks := clicks, end_time := now })

/-- The `cancel_session` handler, in the same state-passing style. -/
def cancel_session (game : Game) (session : Session)
    (playerKey sessionKey : Nat) (now : Int) :
    Except ClickerError Unit × Game × Session :=
  if game.player ≠ playerKey then (.error .InvalidPlayer, game, session)
  else if game.active_session ≠ some sessionKey then
    (.error .InvalidSession, game, session)
  else
    (.ok (),
     { game with active_session := none },
     { session with revealed := true, actual_clicks := 0, end_time := now })

/-- The on-chain account space relevant to the program: `Game` accounts and
`Session` accounts, both keyed by pubkey.  `none` means the account does not
exist. -/
structure World where
  games : Nat → Option Game
  sessions : Nat → Option Session

/-- The world with no accounts. -/
def World.empty : World :=
  { games := fun _ => none, sessions := fun _ => none }

/-- Write a `Game` account at key `k`. -/
def setGame (w : World) (k : Nat) (g : Game) : World :=
  { w with games := fun k2 => if k2 = k then some g else w.games k2 }

/-- Write a `Session` account at key `k`. -/
def setSession (w : World) (k : Nat) (s : Session) : World :=
  { w with sessions := fun k2 => if k2 = k then some s else w.sessions k2 }

/-- One client-visible transaction against the program, with all its inputs:
the signer pubkey, the addresses of the touched accounts, the clock reading,
and the instruction arguments. -/
inductive Op where
  | initGame (playerKey gameKey : Nat) (now : Int)
  | startSession (playerKey gameKey sessionKey : Nat) (now : Int)
      (commitment : List Nat)
  | endSession (playerKey gameKey sessionKey : Nat) (clicks nonce : Nat)
      (max_session_duration now : Int)
  | cancelSession (playerKey gameKey sessionKey : Nat) (now : Int)

/-- Transaction semantics: `init` constraints fail if the account already
exists (`initGame`, `startSession`), missing accounts make the transaction
fail, and a handler error rolls the whole transaction back, leaving the
world unchanged. -/
def apply (H : List Nat → List Nat) (w : World) : Op → World
  | .initGame pk gk now =>
      match w.games gk with
      | some _ => w
      | none => setGame w gk (init_game pk now)
  | .startSession pk gk sk now comm =>
      match w.games gk, w.sessions sk with
      | some g, none =>
          match start_session g pk gk sk now comm with
          | .ok (g2, s2) => setSession (setGame w gk g2) sk s2
          | .error _ => w
      | _, _ => w
  | .endSession pk gk sk clicks nonce maxdur now =>
      match w.games gk, w.sessions sk with
      | some g, some s =>
          match end_session H g s pk sk clicks nonce maxdur now with
          | (.ok _, g2, s2) => setSession (setGame w gk g2) sk s2
          | (.error _, _, _) => w
      | _, _ => w
  | .cancelSession pk gk sk now =>
      match w.games gk, w.sessions sk with
      | some g, some s =>
          match cancel_session g s pk sk now with
          | (.ok _, g2, s2) => setSession (setGame w gk g2) sk s2
          | (.error _, _, _) => w
      | _, _ => w

/-- The worlds reachable from the empty account space by any sequence of
transactions. -/
inductive Reach (H : List Nat → List Nat) : World → Prop where
  | init : Reach H World.empty
  | step : ∀ {w : World} (op : Op), Reach H w → Reach H (apply H w op)

/-- The inductive invariant of the account space: whenever a game's
`active_session` points at `k`, a session account exists at `k`, it is not
revealed, and its `game` back-reference identifies this game. -/
def Inv (w : World) : Prop :=
  ∀ gk g k, w.games gk = some g → g.active_session = some k →
    ∃ s, w.sessions k = some s ∧ s.revealed = false ∧ s.game = gk

/-- A concrete stand-in hash used to instantiate the theorems that are
universally quantified over the hash function: a base-257 fold of the input
bytes encoded back into 32 bytes.  Nothing below depends on any
cryptographic property of it beyond computable inequality of specific
outputs. -/
def Htest (l : List Nat) : List Nat :=
  leBytes 32 (l.foldl (fun a b => a * 257 + b + 1) 1)

@[simp] theorem setGame_games (w : World) (k : Nat) (g : Game) (k2 : Nat) :
    (setGame w k g).games k2 = if k2 = k then some g else w.games k2 := rfl

@[simp] theorem setGame_sessions (w : World) (k : Nat) (g : Game) (k2 : Nat) :
    (setGame w k g).sessions k2 = w.sessions k2 := rfl

@[simp] theorem setSession_sessions (w : World) (k : Nat) (s : Session) (k2 : Nat) :
    (setSession w k s).sessions k2 = if k2 = k then some s else w.sessions k2 := rfl

@[simp] theorem setSession_games (w : World) (k : Nat) (s : Session) (k2 : Nat) :
    (setSession w k s).games k2 = w.games k2 := rfl

/-- Inversion of a successful `start_session`: both checks passed and the
outputs are the literal updates of the source. -/
theorem start_session_ok {g : Game} {pk gk sk : Nat} {now : Int}
    {comm : List Nat} {g2 : Game} {s2 : Session}
    (h : start_session g pk gk sk now comm = .ok (g2, s2)) :
    g.player = pk ∧ g.active_session = none ∧
    g2 = { g with active_session := some sk } ∧
    s2 = { player := pk, game := gk, commitment := comm, start_time := now,
           end_time := 0, actual_clicks := 0, revealed := false } := by
  unfold start_session at h
  split_ifs at h with h1 h2
  simp only [Except.ok.injEq, Prod.mk.injEq] at h
  refine ⟨not_not.mp h1, Option.not_isSome_iff_eq_none.mp h2, h.1.symm, h.2.symm⟩

/-- On any error, `start_session` performed no state change (it returns no
state at all); recorded here only through the error characterization below. -/
theorem start_session_active_err {g : Game} {pk gk sk : Nat} {now : Int}
    {comm : List Nat} {a : Nat}
    (hpk : g.player = pk) (ha : g.active_session = some a) :
    start_session g pk gk sk now comm = .error .SessionAlreadyActive := by
  unfold start_session
  rw [if_neg (by simp [hpk]), if_pos (by simp [ha])]

/-- Frame lemma: every error branch of `end_session` returns the input
accounts untouched. -/
theorem end_session_err_frame {H : List Nat → List Nat} {g : Game}
    {s : Session} {pk sk clicks nonce : Nat} {maxdur now : Int}
    {e : ClickerError} {g2 : Game} {s2 : Session}
    (h : end_session H g s pk sk clicks nonce maxdur now = (.error e, g2, s2)) :
    g2 = g ∧ s2 = s := by
  unfold end_session at h
  split_ifs at h <;>
    simp only [Prod.mk.injEq] at h <;>
    first
      | exact ⟨h.2.1.symm, h.2.2.symm⟩
      | exact absurd h.1 (by simp)

/-- Inversion of a successful `end_session`: all six checks passed and the
outputs are the literal updates of the source. -/
theorem end_session_ok {H : List Nat → List Nat} {g : Game} {s : Session}
    {pk sk clicks nonce : Nat} {maxdur now : Int} {g2 : Game} {s2 : Session}
    (h : end_session H g s pk sk clicks nonce maxdur now = (.ok (), g2, s2)) :
    g.player = pk ∧ g.active_session = some sk ∧ s.revealed = false ∧
    wrap64 (now - s.start_time) ≤ maxdur ∧
    H (commitData clicks nonce pk) = s.commitment ∧
    clicks ≤ max_clicks (wrap64 (now - s.start_time)) ∧
    g2 = { g with
            total_clicks := (g.total_clicks + clicks) % 2 ^ 64,
            last_session_end := now, active_session := none } ∧
    s2 = { s with revealed := true, actual_clicks := clicks, end_time := now } := by
  unfold end_session at h
  split_ifs at h with h1 h2 h3 h4 h5 h6 <;>
    simp only [Prod.mk.injEq] at h
  · exact absurd h.1 (by simp)
  · exact absurd h.1 (by simp)
  · exact absurd h.1 (by simp)
  · exact absurd h.1 (by simp)
  · exact absurd h.1 (by simp)
  · exact absurd h.1 (by simp)
  · exact ⟨not_not.mp h1, not_not.mp h2, Bool.not_eq_true _ ▸ h3,
      not_lt.mp h4, not_not.mp h5, not_lt.mp h6, h.2.1.symm, h.2.2.symm⟩

/-- Frame lemma: both error branches of `cancel_session` return the input
accounts untouched. -/
theorem cancel_session_err_frame {g : Game} {s : Session} {pk sk : Nat}
    {now : Int} {e : ClickerError} {g2 : Game} {s2 : Session}
    (h : cancel_session g s pk sk now = (.error e, g2, s2)) :
    g2 = g ∧ s2 = s := by
  unfold cancel_session at h
  split_ifs at h <;>
    simp only [Prod.mk.injEq] at h <;>
    first
      | exact ⟨h.2.1.symm, h.2.2.symm⟩
      | exact absurd h.1 (by simp)

/-- Inversion of a successful `cancel_session`. -/
theorem cancel_session_ok {g : Game} {s : Session} {pk sk : Nat} {now : Int}
    {g2 : Game} {s2 : Session}
    (h : cancel_session g s pk sk now = (.ok (), g2, s2)) :
    g.player = pk ∧ g.active_session = some sk ∧
    g2 = { g with active_session := none } ∧
    s2 = { s with revealed := true, actual_clicks := 0, end_time := now } := by
  unfold cancel_session at h
  split_ifs at h with h1 h2 <;> simp only [Prod.mk.injEq] at h
  · exact absurd h.1 (by simp)
  · exact absurd h.1 (by simp)
  · exact ⟨not_not.mp h1, not_not.mp h2, h.2.1.symm, h.2.2.symm⟩

/-- A successful `cancel_session`, in the forward direction. -/
theorem cancel_session_spec {g : Game} {s : Session} {pk sk : Nat} {now : Int}
    (hpk : g.player = pk) (ha : g.active_session = some sk) :
    cancel_session g s pk sk now =
      (.ok (), { g with active_session := none },
       { s with revealed := true, actual_clicks := 0, end_time := now }) := by
  unfold cancel_session
  rw [if_neg (by simp [hpk]), if_neg (by simp [ha])]

theorem inv_empty : Inv World.empty := by
  intro gk g k hg
  simp [World.empty] at hg

theorem inv_apply (H : List Nat → List Nat) (w : World) (op : Op)
    (hw : Inv w) : Inv (apply H w op) := by
  cases op with
  | initGame pk gk now =>
      simp only [apply]
      cases hG : w.games gk with
      | some g0 => simp only [hG]; exact hw
      | none =>
          simp only [hG]
          intro gk' g k hg hk
          simp only [setGame_games] at hg
          by_cases hgg : gk' = gk
          · subst hgg
            rw [if_pos rfl] at hg
            cases hg
            simp [init_game] at hk
          · rw [if_neg hgg] at hg
            obtain ⟨s, hs, hrev, hsg⟩ := hw gk' g k hg hk
            exact ⟨s, hs, hrev, hsg⟩
  | startSession pk gk sk now comm =>
      simp only [apply]
      cases hG : w.games gk with
      | none => simp only [hG]; exact hw
      | some g0 =>
          cases hS : w.sessions sk with
          | some s0 => simp only [hG, hS]; exact hw
          | none =>
              simp only [hG, hS]
              cases hR : start_session g0 pk gk sk now comm with
              | error e => simp only [hR]; exact hw
              | ok p =>
                  obtain ⟨g2, s2⟩ := p
                  simp only [hR]
                  obtain ⟨hpk, hact, hg2, hs2⟩ := start_session_ok hR
                  intro gk' g k hg hk
                  simp only [setSession_games, setGame_games,
                    setSession_sessions]
                  simp only [setSession_games, setGame_games] at hg
                  by_cases hgg : gk' = gk
                  · subst hgg
                    rw [if_pos rfl] at hg
                    cases hg
                    rw [hg2] at hk
                    simp at hk
                    subst hk
                    rw [if_pos rfl]
                    exact ⟨s2, rfl, by rw [hs2], by rw [hs2]⟩
                  · rw [if_neg hgg] at hg
                    obtain ⟨s, hs, hrev, hsg⟩ := hw gk' g k hg hk
                    have hks : k ≠ sk := by
                      intro hk2
                      rw [hk2, hS] at hs
                      cases hs
                    rw [if_neg hks]
                    exact ⟨s, hs, hrev, hsg⟩
  | endSession pk gk sk clicks nonce maxdur now =>
      simp only [apply]
      cases hG : w.games gk with
      | none => simp only [hG]; exact hw
      | some g0 =>
          cases hS : w.sessions sk with
          | none => simp only [hG, hS]; exact hw
          | some s0 =>
              simp only [hG, hS]
              cases hR : end_session H g0 s0 pk sk clicks nonce maxdur now with
              | mk r p =>
                  obtain ⟨g2, s2⟩ := p
                  cases r with
                  | error e => simp only [hR]; exact hw
                  | ok u =>
                      cases u
                      simp only [hR]
                      obtain ⟨hpk, hact, hrev0, hdur, hcm, hrate, hg2, hs2⟩ :=
                        end_session_ok hR
                      obtain ⟨sA, hsA, hrevA, hsgA⟩ := hw gk g0 sk hG hact
                      rw [hS] at hsA
                      cases hsA
                      intro gk' g k hg hk
                      simp only [setSession_games, setGame_games,
                        setSession_sessions]
                      simp only [setSession_games, setGame_games] at hg
                      by_cases hgg : gk' = gk
                      · subst hgg
                        rw [if_pos rfl] at hg
                        cases hg
                        rw [hg2] at hk
                        simp at hk
                      · rw [if_neg hgg] at hg
                        obtain ⟨s, hs, hrev, hsg⟩ := hw gk' g k hg hk
                        have hks : k ≠ sk := by
                          intro hk2
                          subst hk2
                          rw [hS] at hs
                          cases hs
                          exact hgg (hsg.symm.trans hsgA)
                        rw [if_neg hks]
                        exact ⟨s, hs, hrev, hsg⟩
  | cancelSession pk gk sk now =>
      simp only [apply]
      cases hG : w.games gk with
      | none => simp only [hG]; exact hw
      | some g0 =>
          cases hS : w.sessions sk with
          | none => simp only [hG, hS]; exact hw
          | some s0 =>
              simp only [hG, hS]
              cases hR : cancel_session g0 s0 pk sk now with
              | mk r p =>
                  obtain ⟨g2, s2⟩ := p
                  cases r with
                  | error e => simp only [hR]; exact hw
                  | ok u =>
                      cases u
                      simp only [hR]
                      obtain ⟨hpk, hact, hg2, hs2⟩ := cancel_session_ok hR
                      obtain ⟨sA, hsA, hrevA, hsgA⟩ := hw gk g0 sk hG hact
                      rw [hS] at hsA
                      cases hsA
                      intro gk' g k hg hk
                      simp only [setSession_games, setGame_games,
                        setSession_sessions]
                      simp only [setSession_games, setGame_games] at hg
                      by_cases hgg : gk' = gk
                      · subst hgg
                        rw [if_pos rfl] at hg
                        cases hg
                        rw [hg2] at hk
                        simp at hk
                      · rw [if_neg hgg] at hg
                        obtain ⟨s, hs, hrev, hsg⟩ := hw gk' g k hg hk
                        have hks : k ≠ sk := by
                          intro hk2
                          subst hk2
                          rw [hS] at hs
                          cases hs
                          exact hgg (hsg.symm.trans hsgA)
                        rw [if_neg hks]
                        exact ⟨s, hs, hrev, hsg⟩

/-- Every reachable world satisfies the invariant. -/
theorem reach_inv {H : List Nat → List Nat} {w : World} (h : Reach H w) :
    Inv w := by
  induction h with
  | init => exact inv_empty
  | step op _ ih => exact inv_apply H _ op ih

/-- C1: if `end_session` returns an error — any of the six error kinds —
then every field of the `Game` ledger and every field of the `Session` is
exactly as it was before the call. -/
theorem end_session_failure_atomic (H : List Nat → List Nat) (g : Game)
    (s : Session) (pk sk clicks nonce : Nat) (maxdur now : Int)
    (e : ClickerError) (g2 : Game) (s2 : Session)
    (h : end_session H g s pk sk clicks nonce maxdur now = (.error e, g2, s2)) :
    g2 = g ∧ s2 = s :=
  end_session_err_frame h

/-- Witness for C1: a concrete failing call (wrong signer) returns the two
accounts untouched. -/
theorem end_session_failure_atomic_inst :
    (end_session Htest ⟨1, 0, 0, none⟩ ⟨1, 5, [], 0, 0, 0, false⟩
        2 7 3 4 20 10).2.1 = ⟨1, 0, 0, none⟩ ∧
    (end_session Htest ⟨1, 0, 0, none⟩ ⟨1, 5, [], 0, 0, 0, false⟩
        2 7 3 4 20 10).2.2 = ⟨1, 5, [], 0, 0, 0, false⟩ :=
  end_session_failure_atomic Htest ⟨1, 0, 0, none⟩ ⟨1, 5, [], 0, 0, 0, false⟩
    2 7 3 4 20 10 .InvalidPlayer _ _ rfl

/-- C3: the commitment hash input is the 4-byte little-endian encoding of
`clicks`, then the 8-byte little-endian encoding of `nonce`, then the raw
player bytes, in that order; recomputing from the same values and comparing
byte-for-byte against a commitment built from those values always yields
`true`, for every hash function (in particular the program's SHA-256). -/
theorem verify_commit_roundtrip (H : List Nat → List Nat)
    (clicks nonce player : Nat) :
    commit H clicks nonce player =
      H (leBytes 4 clicks ++ leBytes 8 nonce ++ leBytes 32 player) ∧
    verify H (commit H clicks nonce player) clicks nonce player = true :=
  ⟨rfl, by simp [verify, commit]⟩

/-- C9: a legal `cancel_session` (owner calling on the ledger's active
session) succeeds with no commitment or policy check, marks the session
revealed with zero clicks and `end_time = now`, clears `active_session`,
and leaves `total_clicks` and `last_session_end` untouched. -/
theorem cancel_session_effects (g : Game) (s : Session) (pk sk : Nat)
    (now : Int) (hpk : g.player = pk) (ha : g.active_session = some sk) :
    cancel_session g s pk sk now =
      (.ok (), { g with active_session := none },
       { s with revealed := true, actual_clicks := 0, end_time := now }) ∧
    ({ g with active_session := none } : Game).total_clicks = g.total_clicks ∧
    ({ g with active_session := none } : Game).last_session_end
      = g.last_session_end := by
  refine ⟨?_, rfl, rfl⟩
  unfold cancel_session
  rw [if_neg (by simp [hpk]), if_neg (by simp [ha])]

/-- Witness for C9 at a concrete legal call. -/
theorem cancel_session_effects_inst :
    cancel_session ⟨1, 9, 4, some 7⟩ ⟨1, 5, [], 0, 0, 0, false⟩ 1 7 12 =
      (.ok (), ⟨1, 9, 4, none⟩, ⟨1, 5, [], 0, 12, 0, true⟩) :=
  (cancel_session_effects ⟨1, 9, 4, some 7⟩ ⟨1, 5, [], 0, 0, 0, false⟩
    1 7 12 rfl rfl).1

/-- C10: in every world reachable by any sequence of transactions from the
empty account space, if a game's `active_session` is `some k` then the
session account at `k` has `revealed = false`. -/
theorem active_session_unrevealed (H : List Nat → List Nat) (w : World)
    (hr : Reach H w) (gk : Nat) (g : Game) (k : Nat) (s : Session)
    (hg : w.games gk = some g) (hk : g.active_session = some k)
    (hs : w.sessions k = some s) : s.revealed = false := by
  obtain ⟨s2, hs2, hrev, _⟩ := reach_inv hr gk g k hg hk
  rw [hs] at hs2
  cases hs2
  exact hrev

/-- Witness for C10: the reachable world after `initialize` and
`start_session` has an unrevealed active session. -/
theorem active_session_unrevealed_inst :
    (⟨1, 5, leBytes 32 0, 0, 0, 0, false⟩ : Session).revealed = false :=
  active_session_unrevealed Htest
    (apply Htest (apply Htest World.empty (.initGame 1 5 0))
      (.startSession 1 5 7 0 (leBytes 32 0)))
    (Reach.step _ (Reach.step _ Reach.init)) 5 ⟨1, 0, 0, some 7⟩ 7
    ⟨1, 5, leBytes 32 0, 0, 0, 0, false⟩ rfl rfl rfl

/-- Forward lemma: when the first four checks pass and the recomputed hash
differs from the stored commitment, `end_session` fails with
`InvalidCommitment` — the commitment check runs before the rate check. -/
theorem end_session_commit_mismatch (H : List Nat → List Nat) (g : Game)
    (s : Session) (pk sk clicks nonce : Nat) (maxdur now : Int)
    (hpk : g.player = pk) (hact : g.active_session = some sk)
    (hrev : s.revealed = false) (hdur : wrap64 (now - s.start_time) ≤ maxdur)
    (hcm : H (commitData clicks nonce pk) ≠ s.commitment) :
    end_session H g s pk sk clicks nonce maxdur now =
      (.error .InvalidCommitment, g, s) := by
  unfold end_session
  rw [if_neg (by simp [hpk]), if_neg (by simp [hact]), if_neg (by simp [hrev]),
    if_neg (not_lt.mpr hdur), if_pos hcm]

/-- Forward lemma: when the owner targets a session that is not the ledger's
active one, both `end_session` and `cancel_session` fail with
`InvalidSession`. -/
theorem not_active_invalid_session (H : List Nat → List Nat) (g : Game)
    (s : Session) (pk sk clicks nonce : Nat) (maxdur now now2 : Int)
    (hpk : g.player = pk) (hact : g.active_session ≠ some sk) :
    end_session H g s pk sk clicks nonce maxdur now =
      (.error .InvalidSession, g, s) ∧
    cancel_session g s pk sk now2 = (.error .InvalidSession, g, s) := by
  constructor
  · unfold end_session
    rw [if_neg (by simp [hpk]), if_pos hact]
  · unfold cancel_session
    rw [if_neg (by simp [hpk]), if_pos hact]

/-- C6 (amended): after a terminal transition the revealed session is no
longer the ledger's active session in any reachable world, so any further
`end_session` or `cancel_session` by the owner targeting it fails — with
`InvalidSession`, not `SessionAlreadyRevealed`. -/
theorem double_finalize_amended (H : List Nat → List Nat) (w : World)
    (hr : Reach H w) (gk sk : Nat) (g : Game) (s : Session)
    (pk clicks nonce : Nat) (maxdur now now2 : Int)
    (hg : w.games gk = some g) (hs : w.sessions sk = some s)
    (hrev : s.revealed = true) (hpk : g.player = pk) :
    (end_session H g s pk sk clicks nonce maxdur now).1
      = .error .InvalidSession ∧
    (cancel_session g s pk sk now2).1 = .error .InvalidSession := by
  have hact : g.active_session ≠ some sk := by
    intro ha
    obtain ⟨s2, hs2, hrev2, _⟩ := reach_inv hr gk g sk hg ha
    rw [hs] at hs2
    cases hs2
    rw [hrev] at hrev2
    cases hrev2
  obtain ⟨h1, h2⟩ := not_active_invalid_session H g s pk sk clicks nonce
    maxdur now now2 hpk hact
  rw [h1, h2]
  exact ⟨rfl, rfl⟩

/-- Counterexample for C6: in the concretely reached world where session 7
has been cancelled (a terminal transition), a further `cancel_session` or
`end_session` on it by the owner fails with `InvalidSession`, which is a
different error from the `SessionAlreadyRevealed` the claim predicts. -/
theorem double_finalize_cex :
    (apply Htest (apply Htest (apply Htest World.empty (.initGame 1 5 0))
        (.startSession 1 5 7 0 (leBytes 32 0))) (.cancelSession 1 5 7 3)).games 5
      = some ⟨1, 0, 0, none⟩ ∧
    (apply Htest (apply Htest (apply Htest World.empty (.initGame 1 5 0))
        (.startSession 1 5 7 0 (leBytes 32 0))) (.cancelSession 1 5 7 3)).sessions 7
      = some ⟨1, 5, leBytes 32 0, 0, 3, 0, true⟩ ∧
    (⟨1, 5, leBytes 32 0, 0, 3, 0, true⟩ : Session).revealed = true ∧
    (cancel_session ⟨1, 0, 0, none⟩ ⟨1, 5, leBytes 32 0, 0, 3, 0, true⟩ 1 7 4).1
      = .error .InvalidSession ∧
    (end_session Htest ⟨1, 0, 0, none⟩ ⟨1, 5, leBytes 32 0, 0, 3, 0, true⟩
        1 7 0 0 20 4).1 = .error .InvalidSession ∧
    ClickerError.InvalidSession ≠ ClickerError.SessionAlreadyRevealed :=
  ⟨rfl, rfl, rfl, rfl, rfl, by decide⟩

/-- Witness for C6 (amended) at the same concretely reached world. -/
theorem double_finalize_inst :
    (end_session Htest ⟨1, 0, 0, none⟩ ⟨1, 5, leBytes 32 0, 0, 3, 0, true⟩
        1 7 0 0 20 4).1 = .error .InvalidSession ∧
    (cancel_session ⟨1, 0, 0, none⟩ ⟨1, 5, leBytes 32 0, 0, 3, 0, true⟩ 1 7 4).1
      = .error .InvalidSession :=
  double_finalize_amended Htest
    (apply Htest (apply Htest (apply Htest World.empty (.initGame 1 5 0))
      (.startSession 1 5 7 0 (leBytes 32 0))) (.cancelSession 1 5 7 3))
    (Reach.step _ (Reach.step _ (Reach.step _ Reach.init))) 5 7
    ⟨1, 0, 0, none⟩ ⟨1, 5, leBytes 32 0, 0, 3, 0, true⟩ 1 0 0 20 4 4
    rfl rfl rfl rfl

/-- C5 (amended): in the §8 scenario — ledger for player 1, session 7
committed to `H(100, 7, player)` at `t = 0`, then
`end_session(clicks = 101, nonce = 7, max_session_duration = 20)` at
`t = 10` — the call fails with `InvalidCommitment` (the commitment check
runs before the rate check, and the hash of 101 differs from the stored
hash of 100) and `total_clicks` stays 0.  Stated for every hash function
that separates the two inputs, which the program's SHA-256 does. -/
theorem scenario_101_amended (H : List Nat → List Nat)
    (hne : H (commitData 101 7 1) ≠ H (commitData 100 7 1)) :
    (end_session H ⟨1, 0, 0, some 7⟩
        ⟨1, 5, H (commitData 100 7 1), 0, 0, 0, false⟩ 1 7 101 7 20 10).1
      = .error .InvalidCommitment ∧
    (end_session H ⟨1, 0, 0, some 7⟩
        ⟨1, 5, H (commitData 100 7 1), 0, 0, 0, false⟩ 1 7 101 7 20 10).2.1.total_clicks
      = 0 := by
  have h := end_session_commit_mismatch H ⟨1, 0, 0, some 7⟩
    ⟨1, 5, H (commitData 100 7 1), 0, 0, 0, false⟩ 1 7 101 7 20 10
    rfl rfl rfl (show wrap64 (10 - 0 : Int) ≤ 20 by decide) hne
  rw [h]
  exact ⟨rfl, rfl⟩

/-- Counterexample for C5: at the concrete scenario state (reached by
`initialize` then `start_session` with the commitment to 100 clicks), the
`end_session(101, 7, 20)` call at `t = 10` returns `InvalidCommitment`,
which is a different error from the `UnrealisticClickRate` the claim
predicts; the ledger keeps `total_clicks = 0`. -/
theorem scenario_101_cex :
    (apply Htest (apply Htest World.empty (.initGame 1 5 0))
        (.startSession 1 5 7 0 (Htest (commitData 100 7 1)))).games 5
      = some ⟨1, 0, 0, some 7⟩ ∧
    (apply Htest (apply Htest World.empty (.initGame 1 5 0))
        (.startSession 1 5 7 0 (Htest (commitData 100 7 1)))).sessions 7
      = some ⟨1, 5, Htest (commitData 100 7 1), 0, 0, 0, false⟩ ∧
    (end_session Htest ⟨1, 0, 0, some 7⟩
        ⟨1, 5, Htest (commitData 100 7 1), 0, 0, 0, false⟩ 1 7 101 7 20 10).1
      = .error .InvalidCommitment ∧
    (end_session Htest ⟨1, 0, 0, some 7⟩
        ⟨1, 5, Htest (commitData 100 7 1), 0, 0, 0, false⟩ 1 7 101 7 20 10).2.1.total_clicks
      = 0 ∧
    ClickerError.InvalidCommitment ≠ ClickerError.UnrealisticClickRate :=
  ⟨rfl, rfl, rfl, rfl, by decide⟩

/-- Witness for C5 (amended): the concrete stand-in hash separates the two
hashed inputs, and the amended conclusion follows from the theorem. -/
theorem scenario_101_inst :
    (end_session Htest ⟨1, 0, 0, some 7⟩
        ⟨1, 5, Htest (commitData 100 7 1), 0, 0, 0, false⟩ 1 7 101 7 20 10).1
      = .error .InvalidCommitment ∧
    (end_session Htest ⟨1, 0, 0, some 7⟩
        ⟨1, 5, Htest (commitData 100 7 1), 0, 0, 0, false⟩ 1 7 101 7 20 10).2.1.total_clicks
      = 0 :=
  scenario_101_amended Htest (by decide)

/-- C8: evaluation of `end_session` at a concrete negative-duration input.
The session started at `t = 10`; the clock then reads `t = 9`, so
`session_duration = -1 ≤ max_session_duration = 0`.  The claim (and spec
§4.2) says the click cap is negative or zero, so the 100-click claim must
be rejected with `UnrealisticClickRate`; the code instead casts the
duration to u32, obtaining the cap `4294967286`, and accepts the 100
clicks, crediting them to the ledger. -/
theorem negative_duration_eval :
    (end_session Htest ⟨1, 0, 0, some 7⟩
        ⟨1, 5, Htest (commitData 100 7 1), 10, 0, 0, false⟩ 1 7 100 7 0 9).1
      = .ok () ∧
    (end_session Htest ⟨1, 0, 0, some 7⟩
        ⟨1, 5, Htest (commitData 100 7 1), 10, 0, 0, false⟩ 1 7 100 7 0 9).2.1.total_clicks
      = 100 ∧
    wrap64 (9 - 10) < 0 ∧ wrap64 (9 - 10) ≤ 0 ∧
    max_clicks (wrap64 (9 - 10)) = 4294967286 :=
  ⟨rfl, rfl, by decide, by decide, by decide⟩

/-- Arithmetic of the cap: for a nonnegative duration small enough that
`duration * 10` fits in u32, the wrapped cap equals the exact product. -/
theorem max_clicks_exact (d : Int) (h1 : 0 ≤ d) (h2 : d * 10 < 2 ^ 32) :
    (max_clicks (wrap64 d) : Int) = d * 10 := by
  unfold max_clicks wrap64
  omega

/-- C4 (amended): once the ownership, active-session, revealed, duration and
commitment checks pass, the call fails with `UnrealisticClickRate` exactly
when `clicks` exceeds the computed cap, and succeeds exactly otherwise —
but the cap is `((session_duration as u32) * 10)` in wrapping u32
arithmetic, not the exact product.  The two agree whenever
`0 ≤ session_duration` and `session_duration * 10 < 2 ^ 32`, which covers
the claim's instances: duration 5 accepts 50 and rejects 51, and duration 0
accepts only 0 clicks. -/
theorem rate_check_amended (H : List Nat → List Nat) (g : Game) (s : Session)
    (pk sk clicks nonce : Nat) (maxdur now : Int)
    (hpk : g.player = pk) (hact : g.active_session = some sk)
    (hrev : s.revealed = false) (hdur : wrap64 (now - s.start_time) ≤ maxdur)
    (hcm : H (commitData clicks nonce pk) = s.commitment) :
    ((end_session H g s pk sk clicks nonce maxdur now).1
        = .error .UnrealisticClickRate
      ↔ max_clicks (wrap64 (now - s.start_time)) < clicks) ∧
    ((end_session H g s pk sk clicks nonce maxdur now).1 = .ok ()
      ↔ clicks ≤ max_clicks (wrap64 (now - s.start_time))) ∧
    (0 ≤ now - s.start_time → (now - s.start_time) * 10 < 2 ^ 32 →
      (max_clicks (wrap64 (now - s.start_time)) : Int)
        = (now - s.start_time) * 10) := by
  refine ⟨?_, ?_, fun h1 h2 => max_clicks_exact _ h1 h2⟩ <;>
    unfold end_session <;>
    rw [if_neg (by simp [hpk]), if_neg (by simp [hact]), if_neg (by simp [hrev]),
      if_neg (not_lt.mpr hdur), if_neg (by simp [hcm])] <;>
    by_cases hr : clicks > max_clicks (wrap64 (now - s.start_time))
  · rw [if_pos hr]
    exact ⟨fun _ => hr, fun _ => rfl⟩
  · rw [if_neg hr]
    exact ⟨fun h => absurd h (by simp), fun h => absurd h (not_lt.mp hr).not_lt⟩
  · rw [if_pos hr]
    exact ⟨fun h => absurd h (by simp), fun h => absurd hr (not_lt.mpr h)⟩
  · rw [if_neg hr]
    exact ⟨fun _ => not_lt.mp hr, fun _ => rfl⟩

/-- Counterexample for C4: a session of duration 429496730 passes all prior
checks with 100 claimed clicks; exact arithmetic allows them
(`100 ≤ 4294967300`), but the cap wraps in u32 to 4, so the code rejects
with `UnrealisticClickRate` — refuting the claimed exact-arithmetic
equivalence. -/
theorem rate_check_wrap_cex :
    (end_session Htest ⟨1, 0, 0, some 7⟩
        ⟨1, 5, Htest (commitData 100 7 1), 0, 0, 0, false⟩
        1 7 100 7 429496730 429496730).1 = .error .UnrealisticClickRate ∧
    (100 : Nat) ≤ 429496730 * 10 ∧
    max_clicks (wrap64 (429496730 - 0)) = 4 :=
  ⟨rfl, by decide, by decide⟩

/-- Witness for C4 (amended): at duration 5 a claim of 51 clicks is
rejected with `UnrealisticClickRate` (cap `5 * 10 = 50`). -/
theorem rate_check_amended_inst :
    (end_session Htest ⟨1, 0, 0, some 7⟩
        ⟨1, 5, Htest (commitData 51 7 1), 0, 0, 0, false⟩ 1 7 51 7 20 5).1
      = .error .UnrealisticClickRate :=
  (rate_check_amended Htest ⟨1, 0, 0, some 7⟩
      ⟨1, 5, Htest (commitData 51 7 1), 0, 0, 0, false⟩ 1 7 51 7 20 5
      rfl rfl rfl (show wrap64 (5 - 0 : Int) ≤ 20 by decide) rfl).1.mpr
    (show max_clicks (wrap64 (5 - 0 : Int)) < 51 by decide)

/-- C2 (amended): `total_clicks` is set to 0 by `initialize`, never changed
by `start_session`, `cancel_session`, or a failing `end_session`, and set by
a successful `end_session` to `(t + clicks) mod 2 ^ 64` — which is `≥ t`
whenever `t + clicks` does not overflow u64; u64 wrap-around is the only way
it can decrease. -/
theorem total_clicks_update_amended (H : List Nat → List Nat) :
    (∀ (pk : Nat) (now : Int), (init_game pk now).total_clicks = 0) ∧
    (∀ (g : Game) (pk gk sk : Nat) (now : Int) (comm : List Nat)
       (g2 : Game) (s2 : Session),
       start_session g pk gk sk now comm = .ok (g2, s2) →
       g2.total_clicks = g.total_clicks) ∧
    (∀ (g : Game) (s : Session) (pk sk : Nat) (now : Int),
       ((cancel_session g s pk sk now).2.1).total_clicks = g.total_clicks) ∧
    (∀ (g : Game) (s : Session) (pk sk clicks nonce : Nat) (maxdur now : Int)
       (e : ClickerError) (g2 : Game) (s2 : Session),
       end_session H g s pk sk clicks nonce maxdur now = (.error e, g2, s2) →
       g2.total_clicks = g.total_clicks) ∧
    (∀ (g : Game) (s : Session) (pk sk clicks nonce : Nat) (maxdur now : Int)
       (g2 : Game) (s2 : Session),
       end_session H g s pk sk clicks nonce maxdur now = (.ok (), g2, s2) →
       g2.total_clicks = (g.total_clicks + clicks) % 2 ^ 64 ∧
       (g.total_clicks + clicks < 2 ^ 64 →
         g.total_clicks ≤ g2.total_clicks)) := by
  refine ⟨fun pk now => rfl, ?_, ?_, ?_, ?_⟩
  · intro g pk gk sk now comm g2 s2 h
    obtain ⟨-, -, hg2, -⟩ := start_session_ok h
    rw [hg2]
  · intro g s pk sk now
    unfold cancel_session
    split_ifs <;> rfl
  · intro g s pk sk clicks nonce maxdur now e g2 s2 h
    obtain ⟨hg2, -⟩ := end_session_err_frame h
    rw [hg2]
  · intro g s pk sk clicks nonce maxdur now g2 s2 h
    obtain ⟨-, -, -, -, -, -, hg2, -⟩ := end_session_ok h
    rw [hg2]
    exact ⟨rfl, fun hlt => by simp only []; omega⟩

/-- Counterexample for C2: on a ledger holding `total_clicks = 2 ^ 64 - 1`,
a successful `end_session` revealing 1 click wraps the u64 counter to 0,
which is smaller than the prior value — so `total_clicks` is not
monotonically non-decreasing as claimed. -/
theorem total_clicks_wrap_cex :
    (end_session Htest ⟨1, 2 ^ 64 - 1, 0, some 7⟩
        ⟨1, 5, Htest (commitData 1 7 1), 0, 0, 0, false⟩ 1 7 1 7 20 10).1
      = .ok () ∧
    (end_session Htest ⟨1, 2 ^ 64 - 1, 0, some 7⟩
        ⟨1, 5, Htest (commitData 1 7 1), 0, 0, 0, false⟩ 1 7 1 7 20 10).2.1.total_clicks
      = 0 ∧
    (0 : Nat) < 2 ^ 64 - 1 :=
  ⟨rfl, by decide, by decide⟩

/-- Witness for C2 (amended): each conjunct of the theorem instantiated at a
concrete call with every hypothesis discharged. -/
theorem total_clicks_update_inst :
    (init_game 1 0).total_clicks = 0 ∧
    ({ (⟨1, 5, 0, none⟩ : Game) with active_session := some 7 } : Game).total_clicks
      = (⟨1, 5, 0, none⟩ : Game).total_clicks ∧
    ((cancel_session ⟨1, 5, 0, some 7⟩ ⟨1, 9, [], 2, 0, 0, false⟩ 1 7 4).2.1).total_clicks
      = (⟨1, 5, 0, some 7⟩ : Game).total_clicks ∧
    (⟨1, 5, 0, some 7⟩ : Game).total_clicks
      = (⟨1, 5, 0, some 7⟩ : Game).total_clicks ∧
    ((⟨1, 8, 10, none⟩ : Game).total_clicks
        = ((⟨1, 5, 0, some 7⟩ : Game).total_clicks + 3) % 2 ^ 64 ∧
      ((⟨1, 5, 0, some 7⟩ : Game).total_clicks + 3 < 2 ^ 64 →
        (⟨1, 5, 0, some 7⟩ : Game).total_clicks
          ≤ (⟨1, 8, 10, none⟩ : Game).total_clicks)) :=
  ⟨(total_clicks_update_amended Htest).1 1 0,
   (total_clicks_update_amended Htest).2.1 ⟨1, 5, 0, none⟩ 1 9 7 2
     (leBytes 32 0) ⟨1, 5, 0, some 7⟩ ⟨1, 9, leBytes 32 0, 2, 0, 0, false⟩ rfl,
   (total_clicks_update_amended Htest).2.2.1 ⟨1, 5, 0, some 7⟩
     ⟨1, 9, [], 2, 0, 0, false⟩ 1 7 4,
   (total_clicks_update_amended Htest).2.2.2.1 ⟨1, 5, 0, some 7⟩
     ⟨1, 9, [], 2, 0, 0, false⟩ 2 7 3 7 20 10 .InvalidPlayer
     ⟨1, 5, 0, some 7⟩ ⟨1, 9, [], 2, 0, 0, false⟩ rfl,
   (total_clicks_update_amended Htest).2.2.2.2 ⟨1, 5, 0, some 7⟩
     ⟨1, 9, Htest (commitData 3 7 1), 2, 0, 0, false⟩ 1 7 3 7 20 10
     ⟨1, 8, 10, none⟩ ⟨1, 9, Htest (commitData 3 7 1), 2, 10, 3, true⟩ rfl⟩

/-- Inversion on the game account at `gk` after one transaction: either it
is untouched, or the transaction is the specific operation on `gk` whose
handler succeeded. -/
theorem apply_games_inv (H : List Nat → List Nat) (w : World) (op : Op)
    (gk : Nat) (g2 : Game) (h : (apply H w op).games gk = some g2) :
    w.games gk = some g2 ∨
    (∃ pk now, op = .initGame pk gk now ∧ w.games gk = none ∧
       g2 = init_game pk now) ∨
    (∃ pk sk now comm g s2, op = .startSession pk gk sk now comm ∧
       w.games gk = some g ∧
       start_session g pk gk sk now comm = .ok (g2, s2)) ∨
    (∃ pk sk clicks nonce maxdur now g s s2,
       op = .endSession pk gk sk clicks nonce maxdur now ∧
       w.games gk = some g ∧ w.sessions sk = some s ∧
       end_session H g s pk sk clicks nonce maxdur now = (.ok (), g2, s2)) ∨
    (∃ pk sk now g s s2, op = .cancelSession pk gk sk now ∧
       w.games gk = some g ∧ w.sessions sk = some s ∧
       cancel_session g s pk sk now = (.ok (), g2, s2)) := by
  cases op with
  | initGame pk gk1 now =>
      simp only [apply] at h
      cases hG : w.games gk1 with
      | some g0 => simp only [hG] at h; exact Or.inl h
      | none =>
          simp only [hG] at h
          simp only [setGame_games] at h
          by_cases hgg : gk = gk1
          · subst hgg
            rw [if_pos rfl] at h
            cases h
            exact Or.inr (Or.inl ⟨pk, now, rfl, hG, rfl⟩)
          · rw [if_neg hgg] at h
            exact Or.inl h
  | startSession pk gk1 sk now comm =>
      simp only [apply] at h
      cases hG : w.games gk1 with
      | none => simp only [hG] at h; exact Or.inl h
      | some g0 =>
          cases hS : w.sessions sk with
          | some s0 => simp only [hG, hS] at h; exact Or.inl h
          | none =>
              simp only [hG, hS] at h
              cases hR : start_session g0 pk gk1 sk now comm with
              | error e => simp only [hR] at h; exact Or.inl h
              | ok p =>
                  obtain ⟨g3, s3⟩ := p
                  simp only [hR] at h
                  simp only [setSession_games, setGame_games] at h
                  by_cases hgg : gk = gk1
                  · subst hgg
                    rw [if_pos rfl] at h
                    cases h
                    exact Or.inr (Or.inr (Or.inl
                      ⟨pk, sk, now, comm, g0, s3, rfl, hG, hR⟩))
                  · rw [if_neg hgg] at h
                    exact Or.inl h
  | endSession pk gk1 sk clicks nonce maxdur now =>
      simp only [apply] at h
      cases hG : w.games gk1 with
      | none => simp only [hG] at h; exact Or.inl h
      | some g0 =>
          cases hS : w.sessions sk with
          | none => simp only [hG, hS] at h; exact Or.inl h
          | some s0 =>
              simp only [hG, hS] at h
              cases hR : end_session H g0 s0 pk sk clicks nonce maxdur now with
              | mk r p =>
                  obtain ⟨g3, s3⟩ := p
                  cases r with
                  | error e => simp only [hR] at h; exact Or.inl h
                  | ok u =>
                      cases u
                      simp only [hR] at h
                      simp only [setSession_games, setGame_games] at h
                      by_cases hgg : gk = gk1
                      · subst hgg
                        rw [if_pos rfl] at h
                        cases h
                        exact Or.inr (Or.inr (Or.inr (Or.inl
                          ⟨pk, sk, clicks, nonce, maxdur, now, g0, s0, s3,
                           rfl, hG, hS, hR⟩)))
                      · rw [if_neg hgg] at h
                        exact Or.inl h
  | cancelSession pk gk1 sk now =>
      simp only [apply] at h
      cases hG : w.games gk1 with
      | none => simp only [hG] at h; exact Or.inl h
      | some g0 =>
          cases hS : w.sessions sk with
          | none => simp only [hG, hS] at h; exact Or.inl h
          | some s0 =>
              simp only [hG, hS] at h
              cases hR : cancel_session g0 s0 pk sk now with
              | mk r p =>
                  obtain ⟨g3, s3⟩ := p
                  cases r with
                  | error e => simp only [hR] at h; exact Or.inl h
                  | ok u =>
                      cases u
                      simp only [hR] at h
                      simp only [setSession_games, setGame_games] at h
                      by_cases hgg : gk = gk1
                      · subst hgg
                        rw [if_pos rfl] at h
                        cases h
                        exact Or.inr (Or.inr (Or.inr (Or.inr
                          ⟨pk, sk, now, g0, s0, s3, rfl, hG, hS, hR⟩)))
                      · rw [if_neg hgg] at h
                        exact Or.inl h

/-- C7: at most one active session per ledger.  (1) While a session is
active, any `start_session` by the owner fails with `SessionAlreadyActive`
regardless of commitment; (2) such a transaction leaves the world unchanged;
(3) `active_session` turns from `none` to `some` only through a
`start_session` on that ledger; (4) a `some a` value is never replaced by a
different session — it either persists or is cleared; (5) it is cleared only
by an `end_session` or `cancel_session` on that ledger. -/
theorem single_active_session (H : List Nat → List Nat) :
    (∀ (g : Game) (pk gk sk : Nat) (now : Int) (comm : List Nat) (a : Nat),
       g.player = pk → g.active_session = some a →
       start_session g pk gk sk now comm = .error .SessionAlreadyActive) ∧
    (∀ (w : World) (pk gk sk : Nat) (now : Int) (comm : List Nat)
       (g : Game) (a : Nat),
       w.games gk = some g → g.player = pk → g.active_session = some a →
       apply H w (.startSession pk gk sk now comm) = w) ∧
    (∀ (w : World) (op : Op) (gk : Nat) (g g2 : Game) (k : Nat),
       w.games gk = some g → (apply H w op).games gk = some g2 →
       g.active_session = none → g2.active_session = some k →
       ∃ pk sk now comm, op = .startSession pk gk sk now comm) ∧
    (∀ (w : World) (op : Op) (gk : Nat) (g g2 : Game) (a : Nat),
       w.games gk = some g → (apply H w op).games gk = some g2 →
       g.active_session = some a →
       g2.active_session = some a ∨ g2.active_session = none) ∧
    (∀ (w : World) (op : Op) (gk : Nat) (g g2 : Game) (a : Nat),
       w.games gk = some g → (apply H w op).games gk = some g2 →
       g.active_session = some a → g2.active_session = none →
       (∃ pk sk clicks nonce maxdur now,
          op = .endSession pk gk sk clicks nonce maxdur now) ∨
       (∃ pk sk now, op = .cancelSession pk gk sk now)) := by
  refine ⟨?_, ?_, ?_, ?_, ?_⟩
  · intro g pk gk sk now comm a hpk ha
    exact start_session_active_err hpk ha
  · intro w pk gk sk now comm g a hg hpk ha
    simp only [apply, hg]
    cases hS : w.sessions sk with
    | some s0 => simp only [hS]
    | none => simp only [hS, start_session_active_err hpk ha]
  · intro w op gk g g2 k hg hg2 hnone hsome
    rcases apply_games_inv H w op gk g2 hg2 with h | ⟨pk, now, hop, hgn, hinit⟩ |
      ⟨pk, sk, now, comm, gmid, s2, hop, hgm, hok⟩ |
      ⟨pk, sk, clicks, nonce, maxdur, now, gmid, smid, s2, hop, hgm, hsm, hok⟩ |
      ⟨pk, sk, now, gmid, smid, s2, hop, hgm, hsm, hok⟩
    · rw [hg] at h
      cases h
      rw [hnone] at hsome
      cases hsome
    · rw [hg] at hgn
      cases hgn
    · exact ⟨pk, sk, now, comm, hop⟩
    · obtain ⟨-, -, -, -, -, -, hg2eq, -⟩ := end_session_ok hok
      rw [hg2eq] at hsome
      simp at hsome
    · obtain ⟨-, -, hg2eq, -⟩ := cancel_session_ok hok
      rw [hg2eq] at hsome
      simp at hsome
  · intro w op gk g g2 a hg hg2 ha
    rcases apply_games_inv H w op gk g2 hg2 with h | ⟨pk, now, hop, hgn, hinit⟩ |
      ⟨pk, sk, now, comm, gmid, s2, hop, hgm, hok⟩ |
      ⟨pk, sk, clicks, nonce, maxdur, now, gmid, smid, s2, hop, hgm, hsm, hok⟩ |
      ⟨pk, sk, now, gmid, smid, s2, hop, hgm, hsm, hok⟩
    · rw [hg] at h
      cases h
      exact Or.inl ha
    · rw [hg] at hgn
      cases hgn
    · rw [hg] at hgm
      cases hgm
      obtain ⟨-, hnone0, -, -⟩ := start_session_ok hok
      rw [ha] at hnone0
      cases hnone0
    · obtain ⟨-, -, -, -, -, -, hg2eq, -⟩ := end_session_ok hok
      exact Or.inr (by rw [hg2eq])
    · obtain ⟨-, -, hg2eq, -⟩ := cancel_session_ok hok
      exact Or.inr (by rw [hg2eq])
  · intro w op gk g g2 a hg hg2 ha hnone2
    rcases apply_games_inv H w op gk g2 hg2 with h | ⟨pk, now, hop, hgn, hinit⟩ |
      ⟨pk, sk, now, comm, gmid, s2, hop, hgm, hok⟩ |
      ⟨pk, sk, clicks, nonce, maxdur, now, gmid, smid, s2, hop, hgm, hsm, hok⟩ |
      ⟨pk, sk, now, gmid, smid, s2, hop, hgm, hsm, hok⟩
    · rw [hg] at h
      cases h
      rw [ha] at hnone2
      cases hnone2
    · rw [hg] at hgn
      cases hgn
    · rw [hg] at hgm
      cases hgm
      obtain ⟨-, hnone0, -, -⟩ := start_session_ok hok
      rw [ha] at hnone0
      cases hnone0
    · exact Or.inl ⟨pk, sk, clicks, nonce, maxdur, now, hop⟩
    · exact Or.inr ⟨pk, sk, now, hop⟩

/-- Witness for C7: each conjunct instantiated at a concrete world and
transaction with every hypothesis discharged. -/
theorem single_active_session_inst :
    start_session ⟨1, 0, 0, some 9⟩ 1 5 7 0 (leBytes 32 0)
      = .error .SessionAlreadyActive ∧
    apply Htest (setGame World.empty 5 ⟨1, 0, 0, some 9⟩)
      (.startSession 1 5 7 0 (leBytes 32 0))
      = setGame World.empty 5 ⟨1, 0, 0, some 9⟩ ∧
    (∃ pk sk now comm, (Op.startSession 1 5 7 0 (leBytes 32 0) : Op)
      = .startSession pk 5 sk now comm) ∧
    ((⟨1, 0, 0, some 9⟩ : Game).active_session = some 9 ∨
      (⟨1, 0, 0, some 9⟩ : Game).active_session = none) ∧
    ((∃ pk sk clicks nonce maxdur now, (Op.cancelSession 1 5 7 3 : Op)
        = .endSession pk 5 sk clicks nonce maxdur now) ∨
      (∃ pk sk now, (Op.cancelSession 1 5 7 3 : Op)
        = .cancelSession pk 5 sk now)) :=
  ⟨(single_active_session Htest).1 ⟨1, 0, 0, some 9⟩ 1 5 7 0 (leBytes 32 0) 9
     rfl rfl,
   (single_active_session Htest).2.1 (setGame World.empty 5 ⟨1, 0, 0, some 9⟩)
     1 5 7 0 (leBytes 32 0) ⟨1, 0, 0, some 9⟩ 9 rfl rfl rfl,
   (single_active_session Htest).2.2.1 (setGame World.empty 5 ⟨1, 0, 0, none⟩)
     (.startSession 1 5 7 0 (leBytes 32 0)) 5 ⟨1, 0, 0, none⟩
     ⟨1, 0, 0, some 7⟩ 7 rfl rfl rfl rfl,
   (single_active_session Htest).2.2.2.1 (setGame World.empty 5 ⟨1, 0, 0, some 9⟩)
     (.cancelSession 1 5 9 3) 5 ⟨1, 0, 0, some 9⟩ ⟨1, 0, 0, some 9⟩ 9
     rfl rfl rfl,
   (single_active_session Htest).2.2.2.2
     (setSession (setGame World.empty 5 ⟨1, 0, 0, some 7⟩) 7
       ⟨1, 5, leBytes 32 0, 0, 0, 0, false⟩)
     (.cancelSession 1 5 7 3) 5 ⟨1, 0, 0, some 7⟩ ⟨1, 0, 0, none⟩ 7
     rfl rfl rfl rfl⟩

end SessionClicker
